import Mathlib

/-!
# fanner: thermal fan controller (src/fanner.c)

A shallow embedding of the control algorithm of `fanner.c`:

* the configuration macros and the constants derived from them
  (`DT_SLOPE`, `MAD_M`, `MAD_S`, `MADS_M`, `MADS_S`, `ADC_LOW`, `ADC_HIGH`);
* the transfer function `scale`;
* the ramp limiter `ramp`;
* the state `globals`, `init` and the body of the `while (1)` loop of `main`.

Conventions.

* A `uint8_t` / `uint16_t` value is a `Nat`; theorems carry the bound
  `< 256` where they quantify over such a value.
* Arithmetic that C performs after integer promotion is done in `Int`;
  a store into a `uint16_t` is `% 65536`, a narrowing to `uint8_t` is `% 256`.
* The constant expressions of type `double` are evaluated in exact rational
  arithmetic (`ℚ`); a conversion of such a constant to an unsigned integer
  type truncates toward zero.
* The hardware registers (`ADCH`, `OCR0B`, ...) are outside the model: the
  loop reads its sample from a list and the value written to `OCR0B` is
  `ramp_current`.
-/

namespace Fanner

/-! ## Configuration macros -/

/-- The macro `RAMP_DELTA`: max change on each ramp step. -/
def RAMP_DELTA : Int := 1

/-- The macro `UINT8_MAX` of `stdint.h`. -/
def UINT8_MAX : Int := 255

/-- The macro `VOLTAGE_REF` (5.0): reference voltage. -/
def VOLTAGE_REF : ℚ := 5

/-- The macro `SENSE_OFFSET` (0.5): sense voltage offset. -/
def SENSE_OFFSET : ℚ := 1 / 2

/-- The macro `SENSE_SLOPE` (0.01): sense voltage slope. -/
def SENSE_SLOPE : ℚ := 1 / 100

/-- The macro `ADC_MAX`: ADC value at Vref. -/
def ADC_MAX : Int := 255

/-- The macro `TEMP_LOW`: lower temperature bound. -/
def TEMP_LOW : Int := 20

/-- The macro `TEMP_HIGH`: upper temperature bound. -/
def TEMP_HIGH : Int := 80

/-- The macro `DUTY_LOW`: duty cycle at low bound. -/
def DUTY_LOW : Int := 63

/-- The macro `DUTY_HIGH`: duty cycle at high bound. -/
def DUTY_HIGH : Int := 255

/-! ## Conversions -/

/-- Conversion of a constant of type `double` to an integer: the fractional
part is discarded (truncation toward zero). -/
def truncate (q : ℚ) : Int := Int.tdiv q.num (q.den : Int)

/-- The cast `(uint8_t)` applied to an integer value. -/
def to_uint8 (x : Int) : Nat := (x % 256).toNat

/-- The cast `(uint16_t)` applied to an integer value. -/
def to_uint16 (x : Int) : Nat := (x % 65536).toNat

/-! ## Derived constants -/

/-- The macro `DT_SLOPE`, read as the value its comment gives:
`Sd := (Dhigh - Dlow) / (Thigh - Tlow)`. -/
def DT_SLOPE : ℚ := ((DUTY_HIGH : ℚ) - (DUTY_LOW : ℚ)) / ((TEMP_HIGH : ℚ) - (TEMP_LOW : ℚ))

/-- The macro `MAD_M`.  `DT_SLOPE` is substituted textually and its body has
no outer parentheses, so the expression is
`VOLTAGE_REF / ADC_MAX / SENSE_SLOPE * (DUTY_HIGH - DUTY_LOW) / (TEMP_HIGH - TEMP_LOW)`,
left to right. -/
def MAD_M : ℚ :=
  VOLTAGE_REF / (ADC_MAX : ℚ) / SENSE_SLOPE * ((DUTY_HIGH : ℚ) - (DUTY_LOW : ℚ))
    / ((TEMP_HIGH : ℚ) - (TEMP_LOW : ℚ))

/-- The macro `MAD_S`, with `DT_SLOPE` substituted textually as in `MAD_M`. -/
def MAD_S : ℚ :=
  SENSE_OFFSET / SENSE_SLOPE * ((DUTY_HIGH : ℚ) - (DUTY_LOW : ℚ))
    / ((TEMP_HIGH : ℚ) - (TEMP_LOW : ℚ))

/-- The macro `MADS_M`: `(uint16_t) (MAD_M * 255.0)`. -/
def MADS_M : Nat := to_uint16 (truncate (MAD_M * 255))

/-- The macro `MADS_S`: `(uint16_t) (MAD_S * 255.0)`. -/
def MADS_S : Nat := to_uint16 (truncate (MAD_S * 255))

/-- The macro `ADC_LOW`:
`(uint8_t) ((TEMP_LOW * SENSE_SLOPE + SENSE_OFFSET) / VOLTAGE_REF * ADC_MAX)`. -/
def ADC_LOW : Nat :=
  to_uint8 (truncate (((TEMP_LOW : ℚ) * SENSE_SLOPE + SENSE_OFFSET) / VOLTAGE_REF * (ADC_MAX : ℚ)))

/-- The macro `ADC_HIGH`:
`(uint8_t) ((TEMP_HIGH * SENSE_SLOPE + SENSE_OFFSET) / VOLTAGE_REF * ADC_MAX)`. -/
def ADC_HIGH : Nat :=
  to_uint8 (truncate (((TEMP_HIGH : ℚ) * SENSE_SLOPE + SENSE_OFFSET) / VOLTAGE_REF * (ADC_MAX : ℚ)))

/-! ## The ramp limiter -/

/-- The body of `ramp` on the promoted (`int`) values of its arguments, with
the step `RAMP_DELTA` as the parameter `delta`: the value of the expression
of the `return` statement that is reached, before it is narrowed to the
return type `uint8_t`. -/
def ramp_promoted (delta current target : Int) : Int :=
  if current ≠ target then
    if current > UINT8_MAX - delta then
      if target > current then
        target
      else
        if current - delta > target then
          current - delta
        else
          target
    else if current < 0 + delta then
      if target < current then
        target
      else
        if current + delta < target then
          current + delta
        else
          target
    else
      if current + delta < target then
        current + delta
      else if current - delta > target then
        current - delta
      else
        target
  else
    current

/-- The function `ramp`: `uint8_t ramp(uint8_t current, uint8_t target)`. -/
def ramp (current target : Nat) : Nat :=
  to_uint8 (ramp_promoted RAMP_DELTA (current : Int) (target : Int))

/-! ## The transfer function -/

/-- The function `scale`: `uint8_t scale(uint8_t adc)`.  The linear branch
computes `(uint16_t) adc * MADS_M - MADS_S` in 16-bit unsigned arithmetic
(the product wraps modulo 2^16, then the difference does), stores it in the
`uint16_t s`, and returns `(uint8_t) (s / 256)`. -/
def scale (adc : Nat) : Nat :=
  if adc ≤ ADC_LOW then
    to_uint8 DUTY_LOW
  else if adc ≥ ADC_HIGH then
    to_uint8 DUTY_HIGH
  else
    let product : Nat := to_uint16 ((adc : Int) * (MADS_M : Int))
    let s : Nat := to_uint16 ((product : Int) - (MADS_S : Int))
    to_uint8 ((s : Int) / 256)

/-! ## The state and the control loop -/

/-- The struct `globals`. -/
structure Globals where
  ramp_current : Nat
  ramp_target : Nat
  deriving DecidableEq, Repr

/-- The function `init`: both fields of `globals` are set to 0. -/
def init : Globals :=
  { ramp_current := 0, ramp_target := 0 }

/-- One iteration of the `while (1)` loop of `main`, reading `adc` from
`ADCH`: `ramp_target = scale(adc)`, then
`ramp_current = ramp(ramp_current, ramp_target)`. -/
def loop_body (g : Globals) (adc : Nat) : Globals :=
  let g1 : Globals := { g with ramp_target := scale adc }
  { g1 with ramp_current := ramp g1.ramp_current g1.ramp_target }

/-- The loop of `main` run over the samples read in successive iterations. -/
def loop (g : Globals) : List Nat → Globals
  | [] => g
  | adc :: rest => loop (loop_body g adc) rest

/-- The function `main` observed after as many iterations as there are
samples: `init()`, then the loop (`hw_init()` writes registers only). -/
def main (samples : List Nat) : Globals :=
  loop init samples

/-! ## Reference definitions taken from the specification -/

/-- The saturating reference definition of the ramp limiter, as the
specification words it: `min(current + RAMP_DELTA, target)` if
`target > current`, `max(current - RAMP_DELTA, target)` if `target < current`,
and `current` if they are equal, over unbounded integers. -/
def ramp_reference (current target : Int) : Int :=
  if target > current then
    min (current + RAMP_DELTA) target
  else if target < current then
    max (current - RAMP_DELTA) target
  else
    current

/-! ## Intermediate values of the transfer computation -/

/-- The mathematical (unwrapped) value of the product `(uint16_t) adc * MADS_M`
in `scale`. -/
def scale_product (adc : Nat) : Int := (adc : Int) * (MADS_M : Int)

/-- The mathematical (unwrapped) value of the difference
`(uint16_t) adc * MADS_M - MADS_S` in `scale`. -/
def scale_difference (adc : Nat) : Int := (adc : Int) * (MADS_M : Int) - (MADS_S : Int)

/-- The value that the linear branch of `scale` stores in the `uint16_t s`:
the product and the difference are each taken modulo 2^16. -/
def scale_s (adc : Nat) : Nat :=
  to_uint16 ((to_uint16 ((adc : Int) * (MADS_M : Int)) : Int) - (MADS_S : Int))

/-- An integer fits in `uint16_t` when it lies in `[0, 65535]`. -/
def fits_uint16 (x : Int) : Prop := 0 ≤ x ∧ x ≤ 65535

instance (x : Int) : Decidable (fits_uint16 x) := by
  unfold fits_uint16
  exact inferInstance

/-- The exact transfer value of the linear region, as the derivation in the
source comment gives it:
`D(ADC) = ADC * [Vref / ADCmax / Ss * Sd] - [Vofs / Ss * Sd]`. -/
def exact_transfer (adc : Nat) : ℚ :=
  (adc : ℚ) * (VOLTAGE_REF / (ADC_MAX : ℚ) / SENSE_SLOPE * DT_SLOPE)
    - (SENSE_OFFSET / SENSE_SLOPE * DT_SLOPE)

/-! ## Values of the derived constants -/

theorem MADS_M_eq : MADS_M = 1600 := by
  norm_num [MADS_M, MAD_M, to_uint16, truncate, VOLTAGE_REF, ADC_MAX, SENSE_SLOPE,
    DUTY_HIGH, DUTY_LOW, TEMP_HIGH, TEMP_LOW]
  decide

theorem MADS_S_eq : MADS_S = 40800 := by
  norm_num [MADS_S, MAD_S, to_uint16, truncate, SENSE_OFFSET, SENSE_SLOPE,
    DUTY_HIGH, DUTY_LOW, TEMP_HIGH, TEMP_LOW]
  decide

theorem ADC_LOW_eq : ADC_LOW = 35 := by
  norm_num [ADC_LOW, to_uint8, truncate, VOLTAGE_REF, ADC_MAX, SENSE_SLOPE, SENSE_OFFSET,
    TEMP_LOW]
  decide

theorem ADC_HIGH_eq : ADC_HIGH = 66 := by
  norm_num [ADC_HIGH, to_uint8, truncate, VOLTAGE_REF, ADC_MAX, SENSE_SLOPE, SENSE_OFFSET,
    TEMP_HIGH]
  decide

/-! ## Unfolding lemmas -/

/-- On 8-bit arguments the narrowing of the return value of `ramp` is the
identity, and the three outer branches collapse to a case split on the
order of `current` and `target`. -/
theorem ramp_cases (current target : Nat) (hc : current < 256) (ht : target < 256) :
    (current = target ∧ ramp current target = current) ∨
    (current + 1 < target ∧ ramp current target = current + 1) ∨
    (current + 1 = target ∧ ramp current target = target) ∨
    (target + 1 < current ∧ ramp current target = current - 1) ∨
    (target + 1 = current ∧ ramp current target = target) := by
  unfold ramp ramp_promoted to_uint8
  simp only [RAMP_DELTA, UINT8_MAX]
  split_ifs <;> omega

/-- The function `scale` with the derived constants evaluated. -/
theorem scale_eval (adc : Nat) :
    scale adc =
      if adc ≤ 35 then 63
      else if adc ≥ 66 then 255
      else (((((adc : Int) * 1600) % 65536 - 40800) % 65536) / 256 % 256).toNat := by
  have h16 : ∀ x : Int, (((x % 65536).toNat : Nat) : Int) = x % 65536 := fun x =>
    Int.toNat_of_nonneg (Int.emod_nonneg x (by decide))
  unfold scale
  simp only [ADC_LOW_eq, ADC_HIGH_eq, MADS_M_eq, MADS_S_eq, DUTY_LOW, DUTY_HIGH, to_uint8,
    to_uint16, h16, Nat.cast_ofNat]
  split_ifs <;> rfl

/-- In the linear region the 16-bit difference does not wrap to a different
value and the quotient fits in 8 bits: `scale adc` is the plain quotient. -/
theorem scale_linear (adc : Nat) (hlo : 35 < adc) (hhi : adc < 66) :
    scale adc = (adc * 1600 - 40800) / 256 := by
  rw [scale_eval, if_neg (by omega), if_neg (by omega)]
  interval_cases adc <;> rfl

/-- The three regions of `scale`, with the constants evaluated. -/
theorem scale_regions (adc : Nat) :
    (adc ≤ 35 ∧ scale adc = 63) ∨ (66 ≤ adc ∧ scale adc = 255) ∨
      (35 < adc ∧ adc < 66 ∧ scale adc = (adc * 1600 - 40800) / 256) := by
  by_cases h1 : adc ≤ 35
  · left
    exact ⟨h1, by rw [scale_eval, if_pos h1]⟩
  · by_cases h2 : 66 ≤ adc
    · right; left
      exact ⟨h2, by rw [scale_eval, if_neg h1, if_pos h2]⟩
    · right; right
      exact ⟨by omega, by omega, scale_linear adc (by omega) (by omega)⟩

/-- Iterating `c ↦ ramp c target` for at least as many steps as the distance
between `current` and `target` ends in `target`. -/
theorem ramp_iterate_reaches (target : Nat) (ht : target < 256) :
    ∀ (n current : Nat), current < 256 → (current - target) + (target - current) ≤ n →
      (fun c => ramp c target)^[n] current = target := by
  intro n
  induction n with
  | zero =>
    intro current _ hd
    simp only [Function.iterate_zero, id_eq]
    omega
  | succ k ih =>
    intro current hc hd
    rw [Function.iterate_succ_apply]
    have hr := ramp_cases current target hc ht
    apply ih
    · omega
    · omega

/-! ## The ramp limiter: claims -/

/-- C1: for 8-bit `current ≠ target`, `ramp current target` lies between
`current` and `target` (it may equal `target`, never passes it), differs from
`current`, and is at most `RAMP_DELTA` away from `current`. -/
theorem ramp_between_and_bounded (current target : Nat) (hc : current < 256)
    (ht : target < 256) (hne : current ≠ target) :
    min current target ≤ ramp current target ∧
    ramp current target ≤ max current target ∧
    ramp current target ≠ current ∧
    |(ramp current target : Int) - (current : Int)| ≤ RAMP_DELTA := by
  have hr := ramp_cases current target hc ht
  simp only [RAMP_DELTA, abs_le]
  omega

theorem ramp_between_and_bounded_witness :
    min 7 200 ≤ ramp 7 200 ∧ ramp 7 200 ≤ max 7 200 ∧ ramp 7 200 ≠ 7 ∧
      |(ramp 7 200 : Int) - ((7 : Nat) : Int)| ≤ RAMP_DELTA :=
  ramp_between_and_bounded 7 200 (by decide) (by decide) (by decide)

/-- C2: `ramp x x = x` for every 8-bit `x`. -/
theorem ramp_fixed_point (x : Nat) (hx : x < 256) : ramp x x = x := by
  have hr := ramp_cases x x hx hx
  omega

theorem ramp_fixed_point_witness : ramp 255 255 = 255 :=
  ramp_fixed_point 255 (by decide)

/-- C3: iterating `c ↦ ramp c target` from `current` gives `target` at every
step count `n ≥ ceil(|current - target| / RAMP_DELTA)`: the target is reached
within that many applications and kept afterwards. -/
theorem ramp_converges (current target : Nat) (hc : current < 256) (ht : target < 256)
    (n : Nat)
    (hn : Int.ceil (|(current : ℚ) - (target : ℚ)| / ((RAMP_DELTA : Int) : ℚ)) ≤ (n : Int)) :
    (fun c => ramp c target)^[n] current = target := by
  apply ramp_iterate_reaches target ht n current hc
  simp only [RAMP_DELTA, Int.cast_one, div_one, Int.ceil_le, Int.cast_natCast, abs_le] at hn
  obtain ⟨h1, h2⟩ := hn
  have h1' : (target : ℚ) ≤ (n : ℚ) + (current : ℚ) := by linarith
  have h2' : (current : ℚ) ≤ (n : ℚ) + (target : ℚ) := by linarith
  have h1n : target ≤ n + current := by exact_mod_cast h1'
  have h2n : current ≤ n + target := by exact_mod_cast h2'
  omega

theorem ramp_converges_witness : (fun c => ramp c 63)^[63] 0 = 63 :=
  ramp_converges 0 63 (by decide) (by decide) 63 (by norm_num [RAMP_DELTA])

/-- C8: on 8-bit arguments `ramp` equals the saturating reference
definition: `min(current + RAMP_DELTA, target)` if `target > current`,
`max(current - RAMP_DELTA, target)` if `target < current`, `current` if they
are equal, the `min`/`max` taken over unbounded integers. -/
theorem ramp_eq_reference (current target : Nat) (hc : current < 256) (ht : target < 256) :
    (ramp current target : Int) = ramp_reference (current : Int) (target : Int) := by
  have hr := ramp_cases current target hc ht
  unfold ramp_reference
  simp only [RAMP_DELTA]
  split_ifs <;> omega

theorem ramp_eq_reference_witness :
    (ramp 255 0 : Int) = ramp_reference ((255 : Nat) : Int) ((0 : Nat) : Int) :=
  ramp_eq_reference 255 0 (by decide) (by decide)

/-! ## The transfer function: claims -/

/-- C4: `scale sample = DUTY_LOW` whenever `sample ≤ ADC_LOW` and
`scale sample = DUTY_HIGH` whenever `sample ≥ ADC_HIGH`, for every 8-bit
`sample`; the two boundary samples `ADC_LOW` and `ADC_HIGH` are themselves
clamped. -/
theorem scale_clamps (sample : Nat) (_hs : sample < 256) :
    (sample ≤ ADC_LOW → (scale sample : Int) = DUTY_LOW) ∧
    (sample ≥ ADC_HIGH → (scale sample : Int) = DUTY_HIGH) ∧
    (scale ADC_LOW : Int) = DUTY_LOW ∧ (scale ADC_HIGH : Int) = DUTY_HIGH := by
  simp only [scale_eval, ADC_LOW_eq, ADC_HIGH_eq, DUTY_LOW, DUTY_HIGH]
  refine ⟨?_, ?_, ?_, ?_⟩
  · intro h
    rw [if_pos h]
    rfl
  · intro h
    rw [if_neg (by omega), if_pos h]
    rfl
  · decide
  · decide

theorem scale_clamps_witness :
    (scale 35 : Int) = DUTY_LOW ∧ (scale 66 : Int) = DUTY_HIGH :=
  ⟨(scale_clamps 35 (by decide)).1 (by simp [ADC_LOW_eq]),
   (scale_clamps 66 (by decide)).2.1 (by simp [ADC_HIGH_eq])⟩

/-- C5: `scale` is monotonically non-decreasing on the 8-bit samples. -/
theorem scale_monotone (a b : Nat) (_ha : a < 256) (_hb : b < 256) (hab : a ≤ b) :
    scale a ≤ scale b := by
  have hra := scale_regions a
  have hrb := scale_regions b
  omega

theorem scale_monotone_witness : scale 35 ≤ scale 36 ∧ scale 65 ≤ scale 66 :=
  ⟨scale_monotone 35 36 (by decide) (by decide) (by decide),
   scale_monotone 65 66 (by decide) (by decide) (by decide)⟩

/-- C6: for `ADC_LOW < sample < ADC_HIGH` the value returned by `scale`
(16-bit wrap-around, then narrowing to 8 bits) is the mathematical
`floor((sample * MADS_M - MADS_S) / 256)`, with `MADS_M = 1600` and
`MADS_S = 40800`. -/
theorem scale_linear_exact (sample : Nat) (hlo : ADC_LOW < sample) (hhi : sample < ADC_HIGH) :
    (scale sample : Int) =
        Int.floor (((sample : ℚ) * (MADS_M : ℚ) - (MADS_S : ℚ)) / 256) ∧
      MADS_M = 1600 ∧ MADS_S = 40800 := by
  refine ⟨?_, MADS_M_eq, MADS_S_eq⟩
  rw [ADC_LOW_eq] at hlo
  rw [ADC_HIGH_eq] at hhi
  have hfloor : Int.floor (((sample : ℚ) * (MADS_M : ℚ) - (MADS_S : ℚ)) / 256)
      = ((sample : Int) * 1600 - 40800) / 256 := by
    have := Rat.floor_intCast_div_natCast ((sample : Int) * 1600 - 40800) 256
    rw [MADS_M_eq, MADS_S_eq]
    push_cast at this ⊢
    exact this
  rw [hfloor, scale_linear sample hlo hhi]
  omega

theorem scale_linear_exact_witness :
    (scale 65 : Int) = Int.floor ((((65 : Nat) : ℚ) * (MADS_M : ℚ) - (MADS_S : ℚ)) / 256) ∧
      MADS_M = 1600 ∧ MADS_S = 40800 :=
  scale_linear_exact 65 (by simp [ADC_LOW_eq]) (by simp [ADC_HIGH_eq])

/-- C7: `DUTY_LOW ≤ scale sample ≤ DUTY_HIGH` for every 8-bit `sample`. -/
theorem scale_in_duty_range (sample : Nat) (_hs : sample < 256) :
    DUTY_LOW ≤ (scale sample : Int) ∧ (scale sample : Int) ≤ DUTY_HIGH := by
  have hr := scale_regions sample
  simp only [DUTY_LOW, DUTY_HIGH]
  omega

theorem scale_in_duty_range_witness :
    DUTY_LOW ≤ (scale 36 : Int) ∧ (scale 36 : Int) ≤ DUTY_HIGH :=
  scale_in_duty_range 36 (by decide)

/-- C10: at the low joint, `scale ADC_LOW = DUTY_LOW`,
`scale (ADC_LOW - 1) = DUTY_LOW`, and `scale (ADC_LOW + 1) > DUTY_LOW`. -/
theorem scale_low_joint :
    (scale ADC_LOW : Int) = DUTY_LOW ∧ (scale (ADC_LOW - 1) : Int) = DUTY_LOW ∧
      DUTY_LOW < (scale (ADC_LOW + 1) : Int) := by
  simp only [scale_eval, ADC_LOW_eq, DUTY_LOW]
  decide

/-! ## The control loop: claims -/

/-- With every sample in the low clamp region, the loop started with
`ramp_current ≤ 63` moves `ramp_current` up by one per iteration until it
is 63. -/
theorem loop_low_samples (samples : List Nat) :
    ∀ g : Globals, g.ramp_current ≤ 63 → (∀ s ∈ samples, s ≤ ADC_LOW) →
      (loop g samples).ramp_current = min (g.ramp_current + samples.length) 63 := by
  induction samples with
  | nil =>
    intro g hg _
    simp only [loop, List.length_nil, Nat.add_zero]
    omega
  | cons adc rest ih =>
    intro g hg hall
    have hadc : adc ≤ 35 := by
      have := hall adc (List.mem_cons_self adc rest)
      rwa [ADC_LOW_eq] at this
    have hscale : scale adc = 63 := by
      rw [scale_eval, if_pos hadc]
    have hr := ramp_cases g.ramp_current 63 (by omega) (by decide)
    have hbody : (loop_body g adc).ramp_current = ramp g.ramp_current 63 := by
      simp only [loop_body, hscale]
    have hrest : ∀ s ∈ rest, s ≤ ADC_LOW := fun s hs => hall s (List.mem_cons_of_mem adc hs)
    rw [loop, ih (loop_body g adc) (by rw [hbody]; omega) hrest, hbody, List.length_cons]
    omega

/-- C9: from the state produced by `init`, when every sample read is at or
below `ADC_LOW`, `ramp_current` after `k` iterations is `k` for `k ≤ 63` and
63 for `k ≥ 63`. -/
theorem main_low_samples_ramp (samples : List Nat) (hlow : ∀ s ∈ samples, s ≤ ADC_LOW) :
    (samples.length ≤ 63 → (main samples).ramp_current = samples.length) ∧
    (63 ≤ samples.length → (main samples).ramp_current = 63) := by
  have h := loop_low_samples samples init (by decide) hlow
  have h0 : init.ramp_current = 0 := rfl
  rw [h0] at h
  unfold main
  omega

theorem main_low_samples_ramp_witness :
    (main [0, 35, 12]).ramp_current = 3 ∧
      (main (List.replicate 64 35)).ramp_current = 63 :=
  ⟨(main_low_samples_ramp [0, 35, 12] (by simp [ADC_LOW_eq])).1 (by decide),
   (main_low_samples_ramp (List.replicate 64 35)
      (by intro s hs; rw [List.eq_of_mem_replicate hs, ADC_LOW_eq])).2 (by simp)⟩

/-- The result of `scale` is an 8-bit value between 63 and 255. -/
theorem scale_bounds (adc : Nat) : 63 ≤ scale adc ∧ scale adc ≤ 255 := by
  have hr := scale_regions adc
  omega

/-- The field `ramp_current` after one iteration of the loop. -/
theorem loop_body_current (g : Globals) (adc : Nat) :
    (loop_body g adc).ramp_current = ramp g.ramp_current (scale adc) := rfl

/-- The loop from any state with an 8-bit `ramp_current`, over any samples:
below 63 `ramp_current` goes up by one per iteration, and from 63 on it
stays between 63 and 255. -/
theorem loop_any_samples (samples : List Nat) :
    ∀ g : Globals, g.ramp_current < 256 →
      (g.ramp_current + samples.length ≤ 63 →
        (loop g samples).ramp_current = g.ramp_current + samples.length) ∧
      (63 ≤ g.ramp_current + samples.length →
        63 ≤ (loop g samples).ramp_current ∧ (loop g samples).ramp_current ≤ 255) := by
  induction samples with
  | nil =>
    intro g hg
    have hl : (loop g []).ramp_current = g.ramp_current := rfl
    rw [hl, List.length_nil]
    omega
  | cons adc rest ih =>
    intro g hg
    have hs := scale_bounds adc
    have hr := ramp_cases g.ramp_current (scale adc) hg (by omega)
    have hb := loop_body_current g adc
    have hi := ih (loop_body g adc) (by rw [hb]; omega)
    rw [hb] at hi
    have hl : loop g (adc :: rest) = loop (loop_body g adc) rest := rfl
    rw [hl, List.length_cons]
    omega

/-- C11: one iteration of the control loop sets `ramp_target` to
`scale adc`, changes `ramp_current` by at most `RAMP_DELTA` in absolute
value, and leaves `ramp_current` unchanged when it already equals that
target. -/
theorem loop_body_bounded_step (g : Globals) (adc : Nat) (hc : g.ramp_current < 256)
    (_hadc : adc < 256) :
    (loop_body g adc).ramp_target = scale adc ∧
    |((loop_body g adc).ramp_current : Int) - (g.ramp_current : Int)| ≤ RAMP_DELTA ∧
    (g.ramp_current = scale adc → (loop_body g adc).ramp_current = g.ramp_current) := by
  have hs := scale_bounds adc
  have hr := ramp_cases g.ramp_current (scale adc) hc (by omega)
  have hb := loop_body_current g adc
  refine ⟨rfl, ?_, ?_⟩
  · rw [hb]
    simp only [RAMP_DELTA, abs_le]
    omega
  · intro heq
    rw [hb]
    omega

theorem loop_body_bounded_step_witness :
    (loop_body { ramp_current := 63, ramp_target := 200 } 12).ramp_target = scale 12 ∧
    |((loop_body { ramp_current := 63, ramp_target := 200 } 12).ramp_current : Int)
        - ((63 : Nat) : Int)| ≤ RAMP_DELTA ∧
    (loop_body { ramp_current := 63, ramp_target := 200 } 12).ramp_current = 63 :=
  have h := loop_body_bounded_step { ramp_current := 63, ramp_target := 200 } 12
    (by decide) (by decide)
  ⟨h.1, h.2.1, h.2.2 (by simp [scale_eval])⟩

/-- C17: from the `init` state and for every sequence of 8-bit samples,
`ramp_current` after `n` iterations is `n` for `n ≤ 63`, and lies between
`DUTY_LOW` and `DUTY_HIGH` for every `n ≥ 63`. -/
theorem main_warm_up_then_floor (samples : List Nat) (_h8 : ∀ s ∈ samples, s < 256) :
    (samples.length ≤ 63 → (main samples).ramp_current = samples.length) ∧
    (63 ≤ samples.length →
      DUTY_LOW ≤ ((main samples).ramp_current : Int) ∧
      ((main samples).ramp_current : Int) ≤ DUTY_HIGH) := by
  have h := loop_any_samples samples init (by decide)
  have h0 : init.ramp_current = 0 := rfl
  rw [h0] at h
  unfold main
  simp only [DUTY_LOW, DUTY_HIGH]
  omega

theorem main_warm_up_then_floor_witness :
    (main [255, 0, 40]).ramp_current = 3 ∧
      (DUTY_LOW ≤ ((main (List.replicate 70 255)).ramp_current : Int) ∧
        ((main (List.replicate 70 255)).ramp_current : Int) ≤ DUTY_HIGH) :=
  ⟨(main_warm_up_then_floor [255, 0, 40] (by simp)).1 (by decide),
   (main_warm_up_then_floor (List.replicate 70 255)
      (by intro s hs; rw [List.eq_of_mem_replicate hs]; decide)).2 (by simp)⟩

/-! ## The ramp limiter: boundaries and step size -/

/-- For every step `1 ≤ d ≤ 255` and 8-bit arguments the body of `ramp` is the
saturating step toward `target`, and its value is in the 8-bit range. -/
theorem ramp_promoted_cases (d : Int) (current target : Nat) (hd1 : 1 ≤ d) (hd2 : d ≤ 255)
    (hc : current < 256) (ht : target < 256) :
    (current = target ∧ ramp_promoted d current target = current) ∨
    ((current : Int) + d < target ∧ ramp_promoted d current target = current + d) ∨
    ((current : Int) < target ∧ (target : Int) ≤ current + d ∧
      ramp_promoted d current target = target) ∨
    ((target : Int) < current - d ∧ ramp_promoted d current target = current - d) ∨
    ((target : Int) < current ∧ (current : Int) - d ≤ target ∧
      ramp_promoted d current target = target) := by
  unfold ramp_promoted
  simp only [UINT8_MAX]
  split_ifs <;> omega

/-- C15: at the four corners of the 8-bit domain `ramp` gives `0`, `255`,
`0 + RAMP_DELTA` and `255 - RAMP_DELTA`; for every 8-bit pair the integer
value returned before narrowing already lies in `[0, 255]`, so the narrowing
to `uint8_t` changes nothing. -/
theorem ramp_corners_and_range (current target : Nat) (hc : current < 256)
    (ht : target < 256) :
    ramp 0 0 = 0 ∧ ramp 255 255 = 255 ∧
    (ramp 0 255 : Int) = 0 + RAMP_DELTA ∧ (ramp 255 0 : Int) = 255 - RAMP_DELTA ∧
    0 ≤ ramp_promoted RAMP_DELTA current target ∧
    ramp_promoted RAMP_DELTA current target ≤ 255 ∧
    (ramp current target : Int) = ramp_promoted RAMP_DELTA current target := by
  have h := ramp_promoted_cases RAMP_DELTA current target (by decide) (by decide) hc ht
  have h00 := ramp_cases 0 0 (by decide) (by decide)
  have h11 := ramp_cases 255 255 (by decide) (by decide)
  have h01 := ramp_cases 0 255 (by decide) (by decide)
  have h10 := ramp_cases 255 0 (by decide) (by decide)
  unfold ramp to_uint8
  unfold ramp to_uint8 at h00 h11 h01 h10
  simp only [RAMP_DELTA] at h h00 h11 h01 h10 ⊢
  omega

theorem ramp_corners_and_range_witness :
    ramp 0 0 = 0 ∧ ramp 255 255 = 255 ∧
    (ramp 0 255 : Int) = 0 + RAMP_DELTA ∧ (ramp 255 0 : Int) = 255 - RAMP_DELTA ∧
    0 ≤ ramp_promoted RAMP_DELTA ((255 : Nat) : Int) ((0 : Nat) : Int) ∧
    ramp_promoted RAMP_DELTA ((255 : Nat) : Int) ((0 : Nat) : Int) ≤ 255 ∧
    (ramp 255 0 : Int) = ramp_promoted RAMP_DELTA ((255 : Nat) : Int) ((0 : Nat) : Int) :=
  ramp_corners_and_range 255 0 (by decide) (by decide)

/-- C18: with any step `1 ≤ d ≤ 255` in place of `RAMP_DELTA` and 8-bit
`current`, `target`, the body of `ramp` (on promoted integers) returns
`min(current + d, target)` if `target > current`, `max(current - d, target)`
if `target < current`, and `current` otherwise; it never passes `target`,
never moves by more than `d`, and stays in the 8-bit range. -/
theorem ramp_promoted_any_step (d : Int) (current target : Nat) (hd1 : 1 ≤ d) (hd2 : d ≤ 255)
    (hc : current < 256) (ht : target < 256) :
    (target > current →
      ramp_promoted d current target = min ((current : Int) + d) (target : Int)) ∧
    (target < current →
      ramp_promoted d current target = max ((current : Int) - d) (target : Int)) ∧
    (target = current → ramp_promoted d current target = current) ∧
    min (current : Int) (target : Int) ≤ ramp_promoted d current target ∧
    ramp_promoted d current target ≤ max (current : Int) (target : Int) ∧
    |ramp_promoted d current target - (current : Int)| ≤ d ∧
    (to_uint8 (ramp_promoted d current target) : Int) = ramp_promoted d current target := by
  have h := ramp_promoted_cases d current target hd1 hd2 hc ht
  unfold to_uint8
  simp only [abs_le]
  omega

theorem ramp_promoted_any_step_witness :
    ramp_promoted 100 ((200 : Nat) : Int) ((250 : Nat) : Int)
        = min (((200 : Nat) : Int) + 100) ((250 : Nat) : Int) ∧
      ramp_promoted 7 ((3 : Nat) : Int) ((0 : Nat) : Int)
        = max (((3 : Nat) : Int) - 7) ((0 : Nat) : Int) ∧
      ramp_promoted 255 ((9 : Nat) : Int) ((9 : Nat) : Int) = ((9 : Nat) : Int) :=
  ⟨(ramp_promoted_any_step 100 200 250 (by decide) (by decide) (by decide) (by decide)).1
      (by decide),
   (ramp_promoted_any_step 7 3 0 (by decide) (by decide) (by decide) (by decide)).2.1
      (by decide),
   (ramp_promoted_any_step 255 9 9 (by decide) (by decide) (by decide) (by decide)).2.2.1
      rfl⟩

/-! ## The derived constants and the fixed-point arithmetic: claims -/

/-- The linear branch of `scale` returns `(uint8_t) (s / 256)` for the stored
value `s`. -/
theorem scale_of_scale_s (adc : Nat) (hlo : ADC_LOW < adc) (hhi : adc < ADC_HIGH) :
    scale adc = to_uint8 ((scale_s adc : Int) / 256) := by
  unfold scale scale_s
  rw [if_neg (by omega), if_neg (by omega)]

/-- C12 fails as stated: the sample 41 is in the linear region and the product
`41 * MADS_M = 65600` does not fit in 16 bits (it wraps to 64). -/
theorem scale_product_overflows_at_41 :
    ADC_LOW < 41 ∧ 41 < ADC_HIGH ∧ scale_product 41 = 65600 ∧
      ¬ fits_uint16 (scale_product 41) ∧ to_uint16 (scale_product 41) = 64 := by
  simp only [ADC_LOW_eq, ADC_HIGH_eq, scale_product, MADS_M_eq, fits_uint16, to_uint16]
  decide

/-- C12, amended: for every sample in the linear region the difference
`sample * MADS_M - MADS_S` fits in 16 bits and is exactly the value stored in
`s`, from which `scale` returns `(uint8_t) (s / 256)`; the product
`sample * MADS_M` fits in 16 bits exactly for the samples up to 40. -/
theorem scale_difference_fits (sample : Nat) (hlo : ADC_LOW < sample)
    (hhi : sample < ADC_HIGH) :
    fits_uint16 (scale_difference sample) ∧
    (scale_s sample : Int) = scale_difference sample ∧
    scale sample = to_uint8 ((scale_s sample : Int) / 256) ∧
    (fits_uint16 (scale_product sample) ↔ sample ≤ 40) := by
  refine ⟨?_, ?_, scale_of_scale_s sample hlo hhi, ?_⟩
  · rw [ADC_LOW_eq] at hlo
    rw [ADC_HIGH_eq] at hhi
    simp only [fits_uint16, scale_difference, MADS_M_eq, MADS_S_eq]
    omega
  · rw [ADC_LOW_eq] at hlo
    rw [ADC_HIGH_eq] at hhi
    simp only [scale_s, scale_difference, to_uint16, MADS_M_eq, MADS_S_eq]
    interval_cases sample <;> rfl
  · rw [ADC_LOW_eq] at hlo
    simp only [fits_uint16, scale_product, MADS_M_eq]
    omega

theorem scale_difference_fits_witness :
    fits_uint16 (scale_difference 65) ∧
    (scale_s 65 : Int) = scale_difference 65 ∧
    scale 65 = to_uint8 ((scale_s 65 : Int) / 256) ∧
    (fits_uint16 (scale_product 65) ↔ 65 ≤ 40) :=
  scale_difference_fits 65 (by simp [ADC_LOW_eq]) (by simp [ADC_HIGH_eq])

/-- The exact coefficients of the linear region. -/
theorem exact_coefficients :
    VOLTAGE_REF / (ADC_MAX : ℚ) / SENSE_SLOPE * DT_SLOPE = 320 / 51 ∧
      SENSE_OFFSET / SENSE_SLOPE * DT_SLOPE = 160 := by
  norm_num [VOLTAGE_REF, ADC_MAX, SENSE_SLOPE, SENSE_OFFSET, DT_SLOPE, DUTY_HIGH, DUTY_LOW,
    TEMP_HIGH, TEMP_LOW]

/-- C13 fails as stated: the derived sample bounds are not 12 and 204. -/
theorem sample_bounds_not_12_204 : ¬ (ADC_LOW = 12 ∧ ADC_HIGH = 204) := by
  rw [ADC_LOW_eq, ADC_HIGH_eq]
  decide

/-- C13, amended: with the program's parameters (reference voltage 5, sensor
offset 1/2, sensor slope 1/100, temperature bounds 20 and 80, ADC maximum
255) the expression `(TEMP_x * slope + offset) / Vref * ADC_MAX` is 35.7 for
`TEMP_LOW` and 66.3 for `TEMP_HIGH`, and the derived sample bounds are
`ADC_LOW = 35` and `ADC_HIGH = 66`. -/
theorem sample_bounds_35_66 :
    ((TEMP_LOW : ℚ) * SENSE_SLOPE + SENSE_OFFSET) / VOLTAGE_REF * (ADC_MAX : ℚ) = 357 / 10 ∧
    ((TEMP_HIGH : ℚ) * SENSE_SLOPE + SENSE_OFFSET) / VOLTAGE_REF * (ADC_MAX : ℚ) = 663 / 10 ∧
    truncate (357 / 10) = 35 ∧ truncate (663 / 10) = 66 ∧
    ADC_LOW = 35 ∧ ADC_HIGH = 66 := by
  refine ⟨?_, ?_, ?_, ?_, ADC_LOW_eq, ADC_HIGH_eq⟩
  · norm_num [TEMP_LOW, SENSE_SLOPE, SENSE_OFFSET, VOLTAGE_REF, ADC_MAX]
  · norm_num [TEMP_HIGH, SENSE_SLOPE, SENSE_OFFSET, VOLTAGE_REF, ADC_MAX]
  · norm_num [truncate]
    decide
  · norm_num [truncate]
    decide

/-- C14: the coefficients `MADS_M` and `MADS_S` are the truncations of
`M * 255` and `S * 255` (1600 and 40800), where `M = Vref / ADC_MAX / Ss * Sd`
and `S = Vofs / Ss * Sd`; the 8.8 fixed-point values `trunc(M * 2^8)` and
`trunc(S * 2^8)` are 1606 and 40960, so the factor of the coefficients is not
the 256 by which `scale` divides.  At sample 65 `scale` returns 246 where the
8.8 coefficients give 247. -/
theorem coefficients_scaled_by_255 :
    MAD_M = VOLTAGE_REF / (ADC_MAX : ℚ) / SENSE_SLOPE * DT_SLOPE ∧
    MAD_S = SENSE_OFFSET / SENSE_SLOPE * DT_SLOPE ∧
    (MADS_M : Int) = truncate (MAD_M * 255) ∧ (MADS_S : Int) = truncate (MAD_S * 255) ∧
    MADS_M = 1600 ∧ MADS_S = 40800 ∧
    truncate (MAD_M * 2 ^ 8) = 1606 ∧ truncate (MAD_S * 2 ^ 8) = 40960 ∧
    scale 65 = 246 ∧ ((65 : Int) * 1606 - 40960) / 256 = 247 := by
  have hM : MAD_M = 320 / 51 := by
    norm_num [MAD_M, VOLTAGE_REF, ADC_MAX, SENSE_SLOPE, DUTY_HIGH, DUTY_LOW, TEMP_HIGH,
      TEMP_LOW]
  have hS : MAD_S = 160 := by
    norm_num [MAD_S, SENSE_OFFSET, SENSE_SLOPE, DUTY_HIGH, DUTY_LOW, TEMP_HIGH, TEMP_LOW]
  have hc := exact_coefficients
  have h1 : truncate (MAD_M * 255) = 1600 := by
    rw [hM]
    norm_num [truncate]
  have h2 : truncate (MAD_S * 255) = 40800 := by
    rw [hS]
    norm_num [truncate]
  refine ⟨by rw [hM, hc.1], by rw [hS, hc.2], ?_, ?_, MADS_M_eq, MADS_S_eq, ?_, ?_, ?_, ?_⟩
  · rw [h1, MADS_M_eq]
    rfl
  · rw [h2, MADS_S_eq]
    rfl
  · rw [hM]
    norm_num [truncate]
    decide
  · rw [hS]
    norm_num [truncate]
  · rw [scale_linear 65 (by decide) (by decide)]
  · decide

/-- C16: for every sample in the linear region, with `MADS_M = 1600` and
`MADS_S = 40800`, the exact transfer value is `sample * 320/51 - 160`, and
`scale` never exceeds it and undershoots it by less than 2. -/
theorem scale_rounding_error (sample : Nat) (hlo : ADC_LOW < sample)
    (hhi : sample < ADC_HIGH) :
    MADS_M = 1600 ∧ MADS_S = 40800 ∧
    exact_transfer sample = (sample : ℚ) * (320 / 51) - 160 ∧
    0 ≤ exact_transfer sample - (scale sample : ℚ) ∧
    exact_transfer sample - (scale sample : ℚ) < 2 := by
  rw [ADC_LOW_eq] at hlo
  rw [ADC_HIGH_eq] at hhi
  have hE : exact_transfer sample = (sample : ℚ) * (320 / 51) - 160 := by
    unfold exact_transfer
    rw [exact_coefficients.1, exact_coefficients.2]
  refine ⟨MADS_M_eq, MADS_S_eq, hE, ?_, ?_⟩
  · rw [hE, scale_linear sample hlo hhi]
    interval_cases sample <;> norm_num
  · rw [hE, scale_linear sample hlo hhi]
    interval_cases sample <;> norm_num

theorem scale_rounding_error_witness :
    MADS_M = 1600 ∧ MADS_S = 40800 ∧
    exact_transfer 65 = ((65 : Nat) : ℚ) * (320 / 51) - 160 ∧
    0 ≤ exact_transfer 65 - (scale 65 : ℚ) ∧
    exact_transfer 65 - (scale 65 : ℚ) < 2 :=
  scale_rounding_error 65 (by simp [ADC_LOW_eq]) (by simp [ADC_HIGH_eq])

end Fanner
